import Mathlib

/-! The s390 Linux shim of the sanitizer runtime.

A shallow embedding of `libsanitizer/sanitizer_common/sanitizer_linux_s390.cc`:
`internal_mmap`, `internal_clone`, `FixedCVE_2016_2143` and `AvoidCVE_2016_2143`.

Conventions.
* `s390x : Bool` selects the `__s390x__` branch of every `#ifdef`; machine words are
  natural numbers below `2 ^ wordBits s390x`, and every C conversion to `unsigned long`
  or `unsigned int` is an explicit reduction modulo the width.
* A C string is the list of the characters that precede its terminating NUL, so reading
  `ptr[0]` at the end of the list reads the terminator, which is not `'.'`.
* Calls that leave the translation unit (`syscall`, `uname`, `GetEnv`, the function behind
  a function pointer) are parameters; observable actions are recorded in a trace.
-/

namespace Sanitizer

/-! ## Machine words -/

/-- Width in bits of `unsigned long`, `uptr` and of a pointer: 64 under `__s390x__`, 32 otherwise. -/
def wordBits (s390x : Bool) : Nat := if s390x then 64 else 32

/-- Size in bytes of one `unsigned long`. -/
def wordBytes (s390x : Bool) : Nat := if s390x then 8 else 4

/-- The conversion `(unsigned long) v`, also the conversion to `uptr`. -/
def toWord (s390x : Bool) (v : Int) : Nat := (v % (2 : Int) ^ wordBits s390x).toNat

/-- The conversion of a value to `unsigned int` (32 bits on both variants). -/
def toUInt (v : Int) : Nat := (v % 4294967296).toNat

/-- System call numbers used by the file, kept symbolic as in the source. -/
inductive Sysno where
  | NR_mmap
  | NR_mmap2
  | NR_clone
  | NR_exit
  deriving DecidableEq, Repr

/-! ## internal_mmap -/

/-- The local `struct s390_mmap_params`: six `unsigned long` fields in declaration order. -/
structure s390_mmap_params where
  addr : Nat
  length : Nat
  prot : Nat
  flags : Nat
  fd : Nat
  offset : Nat
  deriving DecidableEq, Repr

/-- The fields of the parameter block as consecutive machine words, lowest address first. -/
def s390_mmap_params.words (p : s390_mmap_params) : List Nat :=
  [p.addr, p.length, p.prot, p.flags, p.fd, p.offset]

/-- The initializer of `params` in `internal_mmap`: each argument converted to
`unsigned long`; the last field is `offset` under `__s390x__` and `offset / 4096`
(C division, truncating towards zero) otherwise. -/
def mmap_params (s390x : Bool) (addr length prot flags fd offset : Int) : s390_mmap_params :=
  { addr := toWord s390x addr
    length := toWord s390x length
    prot := toWord s390x prot
    flags := toWord s390x flags
    fd := toWord s390x fd
    offset := if s390x then toWord s390x offset else toWord s390x (Int.tdiv offset 4096) }

/-- What one run of `internal_mmap` does: the system calls issued, each with the block its
single pointer argument designates, and the value returned. -/
structure MmapRun where
  calls : List (Sysno × s390_mmap_params)
  ret : Nat
  deriving DecidableEq, Repr

/-- The function `internal_mmap`. `syscall nr params` is the `long` that the call
`syscall(nr, &params)` yields; the return statement converts it to `uptr`. -/
def internal_mmap (s390x : Bool) (syscall : Sysno → s390_mmap_params → Int)
    (addr length prot flags fd offset : Int) : MmapRun :=
  let params := mmap_params s390x addr length prot flags fd offset
  let nr := if s390x then Sysno.NR_mmap else Sysno.NR_mmap2
  { calls := [(nr, params)], ret := toWord s390x (syscall nr params) }

/-! ## internal_clone -/

/-- The value of `EINVAL` from `<errno.h>` on Linux. -/
def EINVAL : Int := 22

/-- The minimum frame size subtracted from `child_stack`: 160 under `__s390x__`, 96 otherwise. -/
def minFrame (s390x : Bool) : Nat := if s390x then 160 else 96

/-- Pointer displacement `p + d` in the address space of the variant. -/
def ptrAdd (s390x : Bool) (p : Nat) (d : Int) : Nat := toWord s390x ((p : Int) + d)

/-- Memory as a map from the address of a word to the word stored there. -/
def Memory := Nat → Nat

/-- A store of one `unsigned long` at address `a`. -/
def Memory.store (m : Memory) (a v : Nat) : Memory := fun x => if x = a then v else m x

/-- What a context does besides plain computation. -/
inductive CloneEvent where
  | svc (nr : Sysno) (args : List Nat)
  | call (target : Nat) (arg : Nat)
  deriving DecidableEq, Repr

/-- How a run of `internal_clone` ends in the context that is observed. -/
inductive CloneOutcome where
  | returned (value : Nat)
  | checkFailed
  | exited (status : Nat)
  deriving DecidableEq, Repr

/-- One run of `internal_clone` as seen by one context: how it ends, its trace, the words
it stored (address, value, in program order) and the memory afterwards. -/
structure CloneRun where
  outcome : CloneOutcome
  trace : List CloneEvent
  writes : List (Nat × Nat)
  mem : Memory

/-- The function `internal_clone`, followed in one of the two contexts in which the clone
system call returns. `r2` is the content of register 2 after `svc` in that context (zero in
the new context, where register 15 is the stack pointer handed to the kernel). `run target x`
is the content of register 2 when the code at `target`, entered by `basr` with `x` in
register 2, returns. The kernel is taken not to alter the three stored words. -/
def internal_clone (s390x : Bool) (r2 : Nat) (run : Nat → Nat → Nat) (mem : Memory)
    (fn child_stack : Nat) (flags : Int) (arg parent_tidptr newtls child_tidptr : Nat) :
    CloneRun :=
  if fn = 0 ∨ child_stack = 0 then
    { outcome := .returned (toWord s390x (-EINVAL)), trace := [], writes := [], mem := mem }
  else if child_stack % 16 ≠ 0 then
    { outcome := .checkFailed, trace := [], writes := [], mem := mem }
  else
    let sp := ptrAdd s390x child_stack (-(minFrame s390x : Int))
    let a0 := sp
    let a1 := ptrAdd s390x sp (wordBytes s390x)
    let a2 := ptrAdd s390x sp (2 * wordBytes s390x)
    let m0 := mem.store a0 0
    let m1 := m0.store a1 fn
    let m2 := m1.store a2 arg
    let writes := [(a0, 0), (a1, fn), (a2, arg)]
    let clone := CloneEvent.svc .NR_clone
      [sp, toWord s390x flags, parent_tidptr, child_tidptr, newtls]
    if r2 ≠ 0 then
      { outcome := .returned r2, trace := [clone], writes := writes, mem := m2 }
    else
      let r1 := m2 (ptrAdd s390x sp (wordBytes s390x))
      let x := m2 (ptrAdd s390x sp (2 * wordBytes s390x))
      let status := run r1 x
      { outcome := .exited status
        trace := [clone, .call r1 x, .svc .NR_exit [status]]
        writes := writes
        mem := m2 }

/-! ## The CVE-2016-2143 gate -/

/-- The result type of the number scanner: the value and the text left at `*endptr`. -/
abbrev Scan := Int × List Char

/-- The scanner `IsDigit`: a decimal digit character. -/
def IsDigit (c : Char) : Bool := decide (48 ≤ c.toNat) && decide (c.toNat ≤ 57)

/-- Accumulates the leading run of decimal digits of `s` onto `acc`. -/
def scanDigits : Nat → List Char → Nat × List Char
  | acc, [] => (acc, [])
  | acc, c :: cs =>
    if IsDigit c then scanDigits (acc * 10 + (c.toNat - 48)) cs else (acc, c :: cs)

/-- Modelled from the spec: `internal_simple_strtoll` (defined in sanitizer_libc.cc, which is
not part of the sources at hand), called with base 10. The spec describes a strict
left-to-right scan of non-negative decimal integers: the leading run of decimal digits is
read as a number and `*endptr` is left at the first character after it; with no digit at
the front the value is 0 and `*endptr` is the start of the text. -/
def internal_simple_strtoll (nptr : List Char) : Scan :=
  let r := scanDigits 0 nptr
  ((r.1 : Int), r.2)

/-- Lines 136 to 160 of `FixedCVE_2016_2143`: the decision on the three `unsigned int`s. -/
def fixedVersion (major minor patch : Nat) : Bool :=
  if major < 3 then
    false
  else if major = 3 then
    if minor = 2 ∧ patch ≥ 79 then true
    else if minor = 12 ∧ patch ≥ 58 then true
    else false
  else if major = 4 then
    if minor = 1 ∧ patch ≥ 21 then true
    else if minor = 4 ∧ patch ≥ 6 then true
    else decide (minor ≥ 5)
  else
    true

/-- Lines 127 to 135 of `FixedCVE_2016_2143`: the scan of `buf.release` into
`(major, minor, patch)`, or `none` where the function returns false because the character
after the major number is not a dot. `strtoll` is the number scanner it calls. -/
def parseRelease (strtoll : List Char → Scan) (release : List Char) : Option (Nat × Nat × Nat) :=
  let s1 := strtoll release
  let major := toUInt s1.1
  match s1.2 with
  | '.' :: rest1 =>
    let s2 := strtoll rest1
    let minor := toUInt s2.1
    let patch :=
      match s2.2 with
      | '.' :: rest2 => toUInt (strtoll rest2).1
      | _ => 0
    some (major, minor, patch)
  | _ => none

/-- The function `FixedCVE_2016_2143`. `uname` is `none` when the call `uname(&buf)` fails
and `some release` with the text of `buf.release` when it succeeds. -/
def FixedCVE_2016_2143 (strtoll : List Char → Scan) (uname : Option (List Char)) : Bool :=
  match uname with
  | none => false
  | some release =>
    match parseRelease strtoll release with
    | none => false
    | some (major, minor, patch) => fixedVersion major minor patch

/-- The name of the override variable. -/
def ignoreVar : String := "SANITIZER_IGNORE_CVE_2016_2143"

/-- The text passed to `Report` by `AvoidCVE_2016_2143`. -/
def diagnostic : String :=
  "ERROR: Your kernel seems to be vulnerable to CVE-2016-2143.  Using ASan,\n" ++
  "MSan, TSan, DFSan or LSan with such kernel can and will crash your\n" ++
  "machine, or worse.\n" ++
  "\n" ++
  "If you are certain your kernel is not vulnerable (you have compiled it\n" ++
  "yourself, or are using an unrecognized distribution kernel), you can\n" ++
  "override this safety check by exporting SANITIZER_IGNORE_CVE_2016_2143\n" ++
  "with any value.\n"

/-- The observable actions of the gate. -/
inductive GateEvent where
  | Report (text : String)
  | Die
  deriving DecidableEq, Repr

/-- The function `AvoidCVE_2016_2143`, as the list of its observable actions; the empty
list is a normal return. `GetEnv name` is `none` for the null pointer (variable absent) and
`some value` otherwise. -/
def AvoidCVE_2016_2143 (strtoll : List Char → Scan) (uname : Option (List Char))
    (GetEnv : String → Option String) : List GateEvent :=
  if FixedCVE_2016_2143 strtoll uname then []
  else if (GetEnv ignoreVar).isSome then []
  else [.Report diagnostic, .Die]

/-- The classification of a literal release string with the modelled scanner. -/
def classify (release : String) : Bool :=
  FixedCVE_2016_2143 internal_simple_strtoll (some release.toList)

/-- A text made of decimal digits only, as a decimal number is written. -/
def allDigits (d : List Char) : Bool := d.all IsDigit

/-- A text at which a decimal number ends: empty, or beginning with a character that is
not a decimal digit. -/
def endsNumber (s : List Char) : Bool :=
  match s with
  | [] => true
  | c :: _ => !IsDigit c

/-- A text that is empty or begins with a character that is neither a decimal digit nor a
dot. -/
def endsVersion (s : List Char) : Bool :=
  match s with
  | [] => true
  | c :: _ => !IsDigit c && decide (c ≠ '.')

/-! ## Auxiliary facts -/

theorem toWord_of_range (s390x : Bool) (v : Int) (h0 : 0 ≤ v)
    (h1 : v < (2 : Int) ^ wordBits s390x) : (toWord s390x v : Int) = v := by
  unfold toWord
  rw [Int.emod_eq_of_lt h0 h1]
  exact Int.toNat_of_nonneg h0

theorem fixedVersion_iff (major minor patch : Nat) :
    fixedVersion major minor patch = true ↔
      (major ≥ 5 ∨
        (major = 4 ∧ ((minor = 1 ∧ patch ≥ 21) ∨ (minor = 4 ∧ patch ≥ 6) ∨ minor ≥ 5)) ∨
        (major = 3 ∧ ((minor = 2 ∧ patch ≥ 79) ∨ (minor = 12 ∧ patch ≥ 58)))) := by
  unfold fixedVersion
  split_ifs <;> simp <;> omega

theorem fixedVersion_old (major minor patch : Nat) (h : major < 3) :
    fixedVersion major minor patch = false := by
  unfold fixedVersion
  simp [h]

theorem FixedCVE_of_parse (strtoll : List Char → Scan) (release : List Char)
    (major minor patch : Nat)
    (h : parseRelease strtoll release = some (major, minor, patch)) :
    FixedCVE_2016_2143 strtoll (some release) = fixedVersion major minor patch := by
  simp [FixedCVE_2016_2143, h]

theorem parseRelease_no_dot (strtoll : List Char → Scan) (release : List Char)
    (h : (strtoll release).2.head? ≠ some '.') : parseRelease strtoll release = none := by
  unfold parseRelease
  simp only []
  split
  · rename_i rest1 heq
    rw [heq] at h
    exact absurd rfl h
  · rfl

/-! ## The claims -/

/-- C1: for every kernel version (major, minor, patch) that the scan of a release string
yields, FixedCVE_2016_2143 reports fixed exactly when major is at least 5, or major is 4 and
(minor is 1 with patch at least 21, or minor is 4 with patch at least 6, or minor at least
5), or major is 3 and (minor is 2 with patch at least 79, or minor is 12 with patch at
least 58); and every version with major below 3 is reported vulnerable. -/
theorem FixedCVE_2016_2143_decision (strtoll : List Char → Scan) (release : List Char)
    (major minor patch : Nat)
    (h : parseRelease strtoll release = some (major, minor, patch)) :
    (FixedCVE_2016_2143 strtoll (some release) = true ↔
      (major ≥ 5 ∨
        (major = 4 ∧ ((minor = 1 ∧ patch ≥ 21) ∨ (minor = 4 ∧ patch ≥ 6) ∨ minor ≥ 5)) ∨
        (major = 3 ∧ ((minor = 2 ∧ patch ≥ 79) ∨ (minor = 12 ∧ patch ≥ 58))))) ∧
    (major < 3 → FixedCVE_2016_2143 strtoll (some release) = false) := by
  rw [FixedCVE_of_parse strtoll release major minor patch h]
  exact ⟨fixedVersion_iff major minor patch, fixedVersion_old major minor patch⟩

/-- Witness of C1 at the release string 4.4.6 with the modelled scanner. -/
theorem FixedCVE_2016_2143_decision_witness :
    parseRelease internal_simple_strtoll "4.4.6".toList = some (4, 4, 6) ∧
    ((FixedCVE_2016_2143 internal_simple_strtoll (some "4.4.6".toList) = true ↔
      (4 ≥ 5 ∨
        (4 = 4 ∧ ((4 = 1 ∧ 6 ≥ 21) ∨ (4 = 4 ∧ 6 ≥ 6) ∨ 4 ≥ 5)) ∨
        (4 = 3 ∧ ((4 = 2 ∧ 6 ≥ 79) ∨ (4 = 12 ∧ 6 ≥ 58))))) ∧
    (4 < 3 → FixedCVE_2016_2143 internal_simple_strtoll (some "4.4.6".toList) = false)) :=
  ⟨by decide,
   FixedCVE_2016_2143_decision internal_simple_strtoll "4.4.6".toList 4 4 6 (by decide)⟩

/-- C2: the parse-and-classify path of FixedCVE_2016_2143 on the literal release strings:
2.9.9 vulnerable, 3.2.79 fixed, 3.2.78 vulnerable, 3.12.58 fixed, 4.1.21 fixed, 4.1.20
vulnerable, 4.5.0 fixed, 5.0 fixed with patch defaulting to 0, and 4 vulnerable. -/
theorem FixedCVE_2016_2143_literals :
    classify "2.9.9" = false ∧ classify "3.2.79" = true ∧ classify "3.2.78" = false ∧
    classify "3.12.58" = true ∧ classify "4.1.21" = true ∧ classify "4.1.20" = false ∧
    classify "4.5.0" = true ∧
    (classify "5.0" = true ∧ parseRelease internal_simple_strtoll "5.0".toList = some (5, 0, 0)) ∧
    (classify "4" = false ∧ parseRelease internal_simple_strtoll "4".toList = none) := by
  decide

/-- C3: AvoidCVE_2016_2143 reports the diagnostic and dies exactly when the kernel is
classified not fixed (which includes a failed uname) and the override variable is absent;
in every other case it does nothing and returns; and whenever the override variable is set,
to any value, it returns without reporting or dying. -/
theorem AvoidCVE_2016_2143_gate (strtoll : List Char → Scan) (uname : Option (List Char))
    (GetEnv : String → Option String) :
    (AvoidCVE_2016_2143 strtoll uname GetEnv = [.Report diagnostic, .Die] ↔
      (FixedCVE_2016_2143 strtoll uname = false ∧ GetEnv ignoreVar = none)) ∧
    (AvoidCVE_2016_2143 strtoll uname GetEnv = [.Report diagnostic, .Die] ∨
      AvoidCVE_2016_2143 strtoll uname GetEnv = []) ∧
    (FixedCVE_2016_2143 strtoll none = false) ∧
    (∀ value, GetEnv ignoreVar = some value → AvoidCVE_2016_2143 strtoll uname GetEnv = []) := by
  unfold AvoidCVE_2016_2143
  refine ⟨?_, ?_, rfl, ?_⟩
  · cases hf : FixedCVE_2016_2143 strtoll uname <;> cases hg : GetEnv ignoreVar <;> simp
  · cases hf : FixedCVE_2016_2143 strtoll uname <;> cases hg : GetEnv ignoreVar <;> simp
  · intro value hv
    cases hf : FixedCVE_2016_2143 strtoll uname <;> simp [hv]

/-- Witness of C3: a vulnerable release with the override set to the empty string. -/
theorem AvoidCVE_2016_2143_gate_witness :
    AvoidCVE_2016_2143 internal_simple_strtoll (some "2.9.9".toList)
      (fun _ => some "") = [] :=
  (AvoidCVE_2016_2143_gate internal_simple_strtoll (some "2.9.9".toList)
    (fun _ => some "")).2.2.2 "" rfl

/-- C4: evaluation at the failing inputs: release strings with a major number of at least 5
and a dot but no minor digits, and one whose minor carries a sign, are classified fixed by
FixedCVE_2016_2143, although the minor number was not matched. -/
theorem FixedCVE_2016_2143_missing_minor :
    classify "5." = true ∧ classify "5.x" = true ∧ classify "5.+1" = true ∧
    parseRelease internal_simple_strtoll "5.".toList = some (5, 0, 0) := by
  decide

/-- C5: whatever the number scanner returns for the major number, when the character at
which it stopped is not a dot, FixedCVE_2016_2143 returns false. -/
theorem FixedCVE_2016_2143_no_dot (strtoll : List Char → Scan) (release : List Char)
    (h : (strtoll release).2.head? ≠ some '.') :
    FixedCVE_2016_2143 strtoll (some release) = false := by
  simp [FixedCVE_2016_2143, parseRelease_no_dot strtoll release h]

/-- Witness of C5 at the release strings 5, 99 and 6-rc1 with the modelled scanner, whose
major numbers are 5, 99 and 6. -/
theorem FixedCVE_2016_2143_no_dot_witness :
    ((internal_simple_strtoll "5".toList).1 = 5 ∧ classify "5" = false) ∧
    ((internal_simple_strtoll "99".toList).1 = 99 ∧ classify "99" = false) ∧
    ((internal_simple_strtoll "6-rc1".toList).1 = 6 ∧ classify "6-rc1" = false) :=
  ⟨⟨by decide, FixedCVE_2016_2143_no_dot internal_simple_strtoll "5".toList (by decide)⟩,
   ⟨by decide, FixedCVE_2016_2143_no_dot internal_simple_strtoll "99".toList (by decide)⟩,
   ⟨by decide, FixedCVE_2016_2143_no_dot internal_simple_strtoll "6-rc1".toList (by decide)⟩⟩

/-- C6: every call of internal_clone with a null fn or a null child_stack, whatever the other
arguments, returns the one value -EINVAL (as uptr: 2 ^ wordBits - 22), with no system call
issued, no word stored and memory left as it was. -/
theorem internal_clone_null_args (s390x : Bool) (r2 : Nat) (run : Nat → Nat → Nat)
    (mem : Memory) (fn child_stack : Nat) (flags : Int)
    (arg parent_tidptr newtls child_tidptr : Nat) (h : fn = 0 ∨ child_stack = 0) :
    (internal_clone s390x r2 run mem fn child_stack flags arg parent_tidptr newtls
        child_tidptr).outcome = .returned (2 ^ wordBits s390x - 22) ∧
    (2 ^ wordBits s390x - 22 : Nat) = toWord s390x (-EINVAL) ∧
    (internal_clone s390x r2 run mem fn child_stack flags arg parent_tidptr newtls
        child_tidptr).trace = [] ∧
    (internal_clone s390x r2 run mem fn child_stack flags arg parent_tidptr newtls
        child_tidptr).writes = [] ∧
    (internal_clone s390x r2 run mem fn child_stack flags arg parent_tidptr newtls
        child_tidptr).mem = mem := by
  have hv : (2 ^ wordBits s390x - 22 : Nat) = toWord s390x (-EINVAL) := by
    cases s390x <;> decide
  unfold internal_clone
  rw [if_pos h]
  exact ⟨by rw [hv], hv, rfl, rfl, rfl⟩

/-- Witness of C6: a null fn with a valid stack and a valid fn with a null stack, on the
64-bit variant, in a context where the clone call would have returned 5. -/
theorem internal_clone_null_args_witness :
    (internal_clone true 5 (fun _ _ => 0) (fun _ => 0) 0 4096 0 0 0 0 0).outcome
        = .returned (2 ^ 64 - 22) ∧
    (internal_clone true 5 (fun _ _ => 0) (fun _ => 0) 1000 0 0 0 0 0 0).outcome
        = .returned (2 ^ 64 - 22) ∧
    (internal_clone true 5 (fun _ _ => 0) (fun _ => 0) 1000 0 0 0 0 0 0).trace = [] :=
  ⟨(internal_clone_null_args true 5 (fun _ _ => 0) (fun _ => 0) 0 4096 0 0 0 0 0
      (Or.inl rfl)).1,
   (internal_clone_null_args true 5 (fun _ _ => 0) (fun _ => 0) 1000 0 0 0 0 0 0
      (Or.inr rfl)).1,
   (internal_clone_null_args true 5 (fun _ _ => 0) (fun _ => 0) 1000 0 0 0 0 0 0
      (Or.inr rfl)).2.2.1⟩

/-- C7 as stated fails: with a null fn and the misaligned stack pointer 8 the call does not
abort, it returns -EINVAL, because the null test comes before the alignment check. -/
theorem internal_clone_misaligned_null_fn :
    8 % 16 ≠ 0 ∧
    (internal_clone true 5 (fun _ _ => 0) (fun _ => 0) 0 8 0 0 0 0 0).outcome
        = .returned (2 ^ 64 - 22) ∧
    (internal_clone true 5 (fun _ _ => 0) (fun _ => 0) 0 8 0 0 0 0 0).outcome
        ≠ .checkFailed := by
  decide

/-- C7 amended: every call of internal_clone with a non-null fn and a stack pointer with
child_stack mod 16 different from 0 fails the CHECK_EQ assertion, with no system call issued,
no word stored and memory left as it was. -/
theorem internal_clone_misaligned (s390x : Bool) (r2 : Nat) (run : Nat → Nat → Nat)
    (mem : Memory) (fn child_stack : Nat) (flags : Int)
    (arg parent_tidptr newtls child_tidptr : Nat) (hfn : fn ≠ 0)
    (h : child_stack % 16 ≠ 0) :
    (internal_clone s390x r2 run mem fn child_stack flags arg parent_tidptr newtls
        child_tidptr).outcome = .checkFailed ∧
    (internal_clone s390x r2 run mem fn child_stack flags arg parent_tidptr newtls
        child_tidptr).trace = [] ∧
    (internal_clone s390x r2 run mem fn child_stack flags arg parent_tidptr newtls
        child_tidptr).writes = [] ∧
    (internal_clone s390x r2 run mem fn child_stack flags arg parent_tidptr newtls
        child_tidptr).mem = mem := by
  have hcs : child_stack ≠ 0 := by
    intro h0
    rw [h0] at h
    exact h rfl
  have hnull : ¬ (fn = 0 ∨ child_stack = 0) := by
    intro hor
    cases hor with
    | inl h1 => exact hfn h1
    | inr h2 => exact hcs h2
  unfold internal_clone
  rw [if_neg hnull, if_pos h]
  exact ⟨rfl, rfl, rfl, rfl⟩

/-- Witness of C7 amended: fn at 1000 and the stack pointer 4104 on the narrow variant. -/
theorem internal_clone_misaligned_witness :
    (internal_clone false 5 (fun _ _ => 0) (fun _ => 0) 1000 4104 0 0 0 0 0).outcome
        = .checkFailed ∧
    (internal_clone false 5 (fun _ _ => 0) (fun _ => 0) 1000 4104 0 0 0 0 0).trace = [] ∧
    (internal_clone false 5 (fun _ _ => 0) (fun _ => 0) 1000 4104 0 0 0 0 0).writes = [] :=
  ⟨(internal_clone_misaligned false 5 (fun _ _ => 0) (fun _ => 0) 1000 4104 0 0 0 0 0
      (by decide) (by decide)).1,
   (internal_clone_misaligned false 5 (fun _ _ => 0) (fun _ => 0) 1000 4104 0 0 0 0 0
      (by decide) (by decide)).2.1,
   (internal_clone_misaligned false 5 (fun _ _ => 0) (fun _ => 0) 1000 4104 0 0 0 0 0
      (by decide) (by decide)).2.2.1⟩

/-- C8: on the narrow variant, for every request with a non-negative byte offset whose page
index is expressible in the 32-bit field, the offset field of the one parameter block that
internal_mmap passes to the kernel equals floor(offset / 4096). -/
theorem internal_mmap_narrow_offset (syscall : Sysno → s390_mmap_params → Int)
    (addr length prot flags fd offset : Int) (h0 : 0 ≤ offset)
    (h1 : offset < 2 ^ 44) :
    (internal_mmap false syscall addr length prot flags fd offset).calls.map
        (fun c => (c.2.offset : Int)) = [offset / 4096] := by
  have hq0 : 0 ≤ offset / 4096 := Int.ediv_nonneg h0 (by norm_num)
  have hq1 : offset / 4096 < (2 : Int) ^ wordBits false := by
    have : offset / 4096 < 4294967296 := by omega
    simpa [wordBits] using this
  have ht : Int.tdiv offset 4096 = offset / 4096 := Int.tdiv_eq_ediv h0 (by norm_num)
  simp only [internal_mmap, mmap_params, List.map, ht]
  rw [if_neg (by decide)]
  rw [toWord_of_range false (offset / 4096) hq0 hq1]

/-- Witness of C8 at the offset 12345678, whose page index is 3014. -/
theorem internal_mmap_narrow_offset_witness :
    (internal_mmap false (fun _ _ => 0) 0 8192 3 2 7 12345678).calls.map
        (fun c => (c.2.offset : Int)) = [12345678 / 4096] ∧ (12345678 : Int) / 4096 = 3014 :=
  ⟨internal_mmap_narrow_offset (fun _ _ => 0) 0 8192 3 2 7 12345678 (by decide) (by decide),
   by decide⟩

/-- C9 as stated fails at v = 4095: the offsets 4096 and 4097 + 4095 = 8192 give the offset
fields 1 and 2 on the narrow variant. -/
theorem internal_mmap_narrow_offset_8192 :
    (0 ≤ (4095 : Int) ∧ (4095 : Int) < 4096) ∧
    (mmap_params false 0 8192 3 2 7 4096).offset = 1 ∧
    (mmap_params false 0 8192 3 2 7 (4097 + 4095)).offset = 2 ∧
    (internal_mmap false (fun _ _ => 0) 0 8192 3 2 7 4096).calls ≠
      (internal_mmap false (fun _ _ => 0) 0 8192 3 2 7 (4097 + 4095)).calls := by
  decide

/-- C9 amended: on the narrow variant, for every v with 0 ≤ v < 4095, a request with offset
4096 and a request with offset 4097 + v, all other fields equal, give the same parameter
block (so the same offset field, which is 1) in the call issued by internal_mmap. -/
theorem internal_mmap_narrow_same_page (syscall : Sysno → s390_mmap_params → Int)
    (addr length prot flags fd v : Int) (h0 : 0 ≤ v) (h1 : v < 4095) :
    (internal_mmap false syscall addr length prot flags fd (4097 + v)).calls =
      (internal_mmap false syscall addr length prot flags fd 4096).calls ∧
    (mmap_params false addr length prot flags fd (4097 + v)).offset = 1 := by
  have ht : Int.tdiv (4097 + v) 4096 = 1 := by
    rw [Int.tdiv_eq_ediv (by omega) (by norm_num)]
    omega
  have ht0 : Int.tdiv 4096 4096 = 1 := by decide
  have hw : toWord false 1 = 1 := by decide
  simp only [internal_mmap, mmap_params, ht, ht0, hw]
  exact ⟨rfl, by rw [if_neg (by decide)]⟩

/-- Witness of C9 amended at v = 4094, the last byte of the page that starts at 4096. -/
theorem internal_mmap_narrow_same_page_witness :
    (internal_mmap false (fun _ _ => 0) 0 8192 3 2 7 (4097 + 4094)).calls =
      (internal_mmap false (fun _ _ => 0) 0 8192 3 2 7 4096).calls ∧
    (mmap_params false 0 8192 3 2 7 (4097 + 4094)).offset = 1 :=
  internal_mmap_narrow_same_page (fun _ _ => 0) 0 8192 3 2 7 4094 (by decide) (by decide)

/-- C10: for every request whose addr and length are machine words, internal_mmap issues
exactly one system call, numbered mmap on the 64-bit variant and mmap2 on the narrow one,
on a block of six words holding addr, length, prot, flags, fd (each converted to unsigned
long) and the offset field, in this order; the length field is the requested length; on
the 64-bit variant the offset field is the requested offset converted to unsigned long,
which is the offset itself when it lies in 0 .. 2 ^ 64 - 1; and the value returned is the
result of that one call converted to uptr. -/
theorem internal_mmap_single_call (s390x : Bool) (syscall : Sysno → s390_mmap_params → Int)
    (addr length prot flags fd offset : Int)
    (haddr : 0 ≤ addr ∧ addr < 2 ^ wordBits s390x)
    (hlen : 0 ≤ length ∧ length < 2 ^ wordBits s390x) :
    ∃ p : s390_mmap_params,
      (internal_mmap s390x syscall addr length prot flags fd offset).calls =
        [(if s390x then Sysno.NR_mmap else Sysno.NR_mmap2, p)] ∧
      p.words = [addr.toNat, length.toNat, toWord s390x prot, toWord s390x flags,
        toWord s390x fd, p.offset] ∧
      (p.length : Int) = length ∧
      (s390x = true → p.offset = toWord true offset) ∧
      (s390x = true → 0 ≤ offset → offset < 2 ^ 64 → (p.offset : Int) = offset) ∧
      (internal_mmap s390x syscall addr length prot flags fd offset).ret =
        toWord s390x (syscall (if s390x then Sysno.NR_mmap else Sysno.NR_mmap2) p) := by
  have ha := toWord_of_range s390x addr haddr.1 haddr.2
  have hl := toWord_of_range s390x length hlen.1 hlen.2
  have ha2 : toWord s390x addr = addr.toNat := by
    have := congrArg Int.toNat ha
    simpa using this
  have hl2 : toWord s390x length = length.toNat := by
    have := congrArg Int.toNat hl
    simpa using this
  refine ⟨mmap_params s390x addr length prot flags fd offset, rfl, ?_, hl, ?_, ?_, rfl⟩
  · simp [s390_mmap_params.words, mmap_params, ha2, hl2]
  · intro hs
    subst hs
    rfl
  · intro hs h0 h1
    subst hs
    exact toWord_of_range true offset h0 (by simpa [wordBits] using h1)

/-- Witness of C10 on the 64-bit variant: one mmap call on the block
[4096, 8192, 3, 34, 2 ^ 64 - 1, 12288] (fd is -1), and the kernel result -12 returned as
2 ^ 64 - 12. -/
theorem internal_mmap_single_call_witness :
    (internal_mmap true (fun _ _ => -12) 4096 8192 3 34 (-1) 12288).calls =
      [(Sysno.NR_mmap,
        { addr := 4096, length := 8192, prot := 3, flags := 34,
          fd := 18446744073709551615, offset := 12288 })] ∧
    (internal_mmap true (fun _ _ => -12) 4096 8192 3 34 (-1) 12288).ret
      = 18446744073709551604 ∧
    (∃ p : s390_mmap_params,
      (internal_mmap true (fun _ _ => -12) 4096 8192 3 34 (-1) 12288).calls =
        [(if true then Sysno.NR_mmap else Sysno.NR_mmap2, p)] ∧
      p.words = [(4096 : Int).toNat, (8192 : Int).toNat, toWord true 3, toWord true 34,
        toWord true (-1), p.offset] ∧
      (p.length : Int) = 8192 ∧
      (true = true → p.offset = toWord true 12288) ∧
      (true = true → 0 ≤ (12288 : Int) → (12288 : Int) < 2 ^ 64 → (p.offset : Int) = 12288) ∧
      (internal_mmap true (fun _ _ => -12) 4096 8192 3 34 (-1) 12288).ret =
        toWord true ((fun _ _ => -12) (if true then Sysno.NR_mmap else Sysno.NR_mmap2) p)) :=
  ⟨by decide, by decide,
   internal_mmap_single_call true (fun _ _ => -12) 4096 8192 3 34 (-1) 12288
     ⟨by decide, by decide⟩ ⟨by decide, by decide⟩⟩


/-! ## Auxiliary facts on the frame built by internal_clone -/

theorem ptrAdd_lt (s390x : Bool) (p : Nat) (d : Int) :
    ptrAdd s390x p d < 2 ^ wordBits s390x := by
  unfold ptrAdd toWord
  cases s390x <;> simp [wordBits] <;> omega

theorem ptrAdd_word_ne (s390x : Bool) (p : Nat) (hp : p < 2 ^ wordBits s390x) :
    ptrAdd s390x p (wordBytes s390x) ≠ p ∧
    ptrAdd s390x p (2 * wordBytes s390x) ≠ p ∧
    ptrAdd s390x p (wordBytes s390x) ≠ ptrAdd s390x p (2 * wordBytes s390x) := by
  unfold ptrAdd toWord
  cases s390x <;> simp [wordBits, wordBytes] at hp ⊢ <;> omega

theorem not_null_of_accepted (fn child_stack : Nat) (hfn : fn ≠ 0) (hcs : child_stack ≠ 0) :
    ¬ (fn = 0 ∨ child_stack = 0) := by
  intro hor
  cases hor with
  | inl h1 => exact hfn h1
  | inr h2 => exact hcs h2

theorem frame_reload (s390x : Bool) (mem : Memory) (sp fn arg : Nat)
    (hsp : sp < 2 ^ wordBits s390x) :
    (((mem.store sp 0).store (ptrAdd s390x sp (wordBytes s390x)) fn).store
        (ptrAdd s390x sp (2 * wordBytes s390x)) arg) sp = 0 ∧
    (((mem.store sp 0).store (ptrAdd s390x sp (wordBytes s390x)) fn).store
        (ptrAdd s390x sp (2 * wordBytes s390x)) arg) (ptrAdd s390x sp (wordBytes s390x)) = fn ∧
    (((mem.store sp 0).store (ptrAdd s390x sp (wordBytes s390x)) fn).store
        (ptrAdd s390x sp (2 * wordBytes s390x)) arg)
          (ptrAdd s390x sp (2 * wordBytes s390x)) = arg := by
  obtain ⟨h1, h2, h3⟩ := ptrAdd_word_ne s390x sp hsp
  unfold Memory.store
  refine ⟨?_, ?_, ?_⟩
  · rw [if_neg (Ne.symm h2), if_neg (Ne.symm h1), if_pos rfl]
  · rw [if_neg h3, if_pos rfl]
  · rw [if_pos rfl]

/-- C11: in the child branch (register 2 is 0 after the clone call) of an accepted request,
the trace of internal_clone is the clone call, then the call of fn with exactly arg, then
the exit system call whose argument is the value fn returned; the run ends in that exit
and never in a return of internal_clone. -/
theorem internal_clone_child (s390x : Bool) (run : Nat → Nat → Nat) (mem : Memory)
    (fn child_stack : Nat) (flags : Int) (arg parent_tidptr newtls child_tidptr : Nat)
    (hfn : fn ≠ 0) (hcs : child_stack ≠ 0) (hal : child_stack % 16 = 0) :
    (internal_clone s390x 0 run mem fn child_stack flags arg parent_tidptr newtls
        child_tidptr).trace =
      [.svc .NR_clone [ptrAdd s390x child_stack (-(minFrame s390x : Int)),
          toWord s390x flags, parent_tidptr, child_tidptr, newtls],
       .call fn arg,
       .svc .NR_exit [run fn arg]] ∧
    (internal_clone s390x 0 run mem fn child_stack flags arg parent_tidptr newtls
        child_tidptr).outcome = .exited (run fn arg) ∧
    (∀ value, (internal_clone s390x 0 run mem fn child_stack flags arg parent_tidptr newtls
        child_tidptr).outcome ≠ .returned value) := by
  have hsp := ptrAdd_lt s390x child_stack (-(minFrame s390x : Int))
  obtain ⟨_, h1, h2⟩ := frame_reload s390x mem _ fn arg hsp
  unfold internal_clone
  rw [if_neg (not_null_of_accepted fn child_stack hfn hcs), if_neg (not_not.mpr hal)]
  simp only [ne_eq, not_true_eq_false, if_false, h1, h2]
  exact ⟨trivial, trivial, fun value h => by cases h⟩

/-- Witness of C11: an entry function at 1000 that returns 7 for the argument 55, with the
stack top 4096 on the 64-bit variant, makes the new context exit with status 7. -/
theorem internal_clone_child_witness :
    (internal_clone true 0 (fun _ _ => 7) (fun _ => 0) 1000 4096 17 55 0 0 0).trace =
      [.svc .NR_clone [3936, 17, 0, 0, 0], .call 1000 55, .svc .NR_exit [7]] ∧
    (internal_clone true 0 (fun _ _ => 7) (fun _ => 0) 1000 4096 17 55 0 0 0).outcome
      = .exited 7 :=
  ⟨(internal_clone_child true (fun _ _ => 7) (fun _ => 0) 1000 4096 17 55 0 0 0
      (by decide) (by decide) (by decide)).1,
   (internal_clone_child true (fun _ _ => 7) (fun _ => 0) 1000 4096 17 55 0 0 0
      (by decide) (by decide) (by decide)).2.1⟩

/-- C12: in the parent branch (register 2 holds a non-zero r after the clone call) of an
accepted request, internal_clone returns exactly r, and its trace is the one clone call:
fn is not called, exit is not issued, clone is not issued again. -/
theorem internal_clone_parent (s390x : Bool) (r : Nat) (run : Nat → Nat → Nat) (mem : Memory)
    (fn child_stack : Nat) (flags : Int) (arg parent_tidptr newtls child_tidptr : Nat)
    (hfn : fn ≠ 0) (hcs : child_stack ≠ 0) (hal : child_stack % 16 = 0) (hr : r ≠ 0) :
    (internal_clone s390x r run mem fn child_stack flags arg parent_tidptr newtls
        child_tidptr).outcome = .returned r ∧
    (internal_clone s390x r run mem fn child_stack flags arg parent_tidptr newtls
        child_tidptr).trace =
      [.svc .NR_clone [ptrAdd s390x child_stack (-(minFrame s390x : Int)),
          toWord s390x flags, parent_tidptr, child_tidptr, newtls]] := by
  unfold internal_clone
  rw [if_neg (not_null_of_accepted fn child_stack hfn hcs), if_neg (not_not.mpr hal)]
  simp only [ne_eq, hr, not_false_eq_true, if_true]
  exact ⟨trivial, trivial⟩

/-- Witness of C12 on the narrow variant: the new context id 4321, and the kernel error
-12 held in register 2 as 2 ^ 32 - 12, are both returned as they are. -/
theorem internal_clone_parent_witness :
    (internal_clone false 4321 (fun _ _ => 7) (fun _ => 0) 1000 4096 17 55 0 0 0).outcome
      = .returned 4321 ∧
    (internal_clone false (2 ^ 32 - 12) (fun _ _ => 7) (fun _ => 0) 1000 4096 17 55 0 0
      0).outcome = .returned (2 ^ 32 - 12) ∧
    (internal_clone false 4321 (fun _ _ => 7) (fun _ => 0) 1000 4096 17 55 0 0 0).trace
      = [.svc .NR_clone [4000, 17, 0, 0, 0]] :=
  ⟨(internal_clone_parent false 4321 (fun _ _ => 7) (fun _ => 0) 1000 4096 17 55 0 0 0
      (by decide) (by decide) (by decide) (by decide)).1,
   (internal_clone_parent false (2 ^ 32 - 12) (fun _ _ => 7) (fun _ => 0) 1000 4096 17 55 0 0
      0 (by decide) (by decide) (by decide) (by decide)).1,
   (internal_clone_parent false 4321 (fun _ _ => 7) (fun _ => 0) 1000 4096 17 55 0 0 0
      (by decide) (by decide) (by decide) (by decide)).2⟩
theorem internal_clone_accepted_common (s390x : Bool) (r2 : Nat) (run : Nat → Nat → Nat)
    (mem : Memory) (fn child_stack : Nat) (flags : Int)
    (arg parent_tidptr newtls child_tidptr : Nat)
    (hfn : fn ≠ 0) (hcs : child_stack ≠ 0) (hal : child_stack % 16 = 0) :
    (internal_clone s390x r2 run mem fn child_stack flags arg parent_tidptr newtls
        child_tidptr).trace.head? =
      some (.svc .NR_clone [ptrAdd s390x child_stack (-(minFrame s390x : Int)),
        toWord s390x flags, parent_tidptr, child_tidptr, newtls]) ∧
    (internal_clone s390x r2 run mem fn child_stack flags arg parent_tidptr newtls
        child_tidptr).writes =
      [(ptrAdd s390x child_stack (-(minFrame s390x : Int)), 0),
       (ptrAdd s390x (ptrAdd s390x child_stack (-(minFrame s390x : Int)))
          (wordBytes s390x), fn),
       (ptrAdd s390x (ptrAdd s390x child_stack (-(minFrame s390x : Int)))
          (2 * wordBytes s390x), arg)] ∧
    (internal_clone s390x r2 run mem fn child_stack flags arg parent_tidptr newtls
        child_tidptr).mem =
      ((mem.store (ptrAdd s390x child_stack (-(minFrame s390x : Int))) 0).store
        (ptrAdd s390x (ptrAdd s390x child_stack (-(minFrame s390x : Int)))
          (wordBytes s390x)) fn).store
        (ptrAdd s390x (ptrAdd s390x child_stack (-(minFrame s390x : Int)))
          (2 * wordBytes s390x)) arg := by
  unfold internal_clone
  rw [if_neg (not_null_of_accepted fn child_stack hfn hcs), if_neg (not_not.mpr hal)]
  by_cases hr : r2 = 0
  · subst hr
    simp only [ne_eq, not_true_eq_false, if_false, List.head?_cons]
    exact ⟨trivial, trivial, trivial⟩
  · simp only [ne_eq, hr, not_false_eq_true, if_true, List.head?_cons]
    exact ⟨trivial, trivial, trivial⟩

theorem frame_in_range (s390x : Bool) (child_stack : Nat)
    (hw : child_stack < 2 ^ wordBits s390x) (hroom : minFrame s390x ≤ child_stack) :
    ptrAdd s390x child_stack (-(minFrame s390x : Int)) = child_stack - minFrame s390x ∧
    ptrAdd s390x (ptrAdd s390x child_stack (-(minFrame s390x : Int))) (wordBytes s390x)
      = child_stack - minFrame s390x + wordBytes s390x ∧
    ptrAdd s390x (ptrAdd s390x child_stack (-(minFrame s390x : Int))) (2 * wordBytes s390x)
      = child_stack - minFrame s390x + 2 * wordBytes s390x := by
  unfold ptrAdd toWord
  cases s390x <;> simp [wordBits, wordBytes, minFrame] at hw hroom ⊢ <;> omega

/-- C13: for every accepted request, internal_clone hands to the clone system call the stack
pointer sp = child_stack - F in pointer arithmetic (F is 160 on the 64-bit variant and 96 on
the narrow one; the plain difference when the stack top is a machine word of at least F),
having stored the words [0] = 0, [1] = fn and [2] = arg at sp; and the two consecutive
words that the child reloads, at byte offsets 8 and 16 from sp on the 64-bit variant and 4
and 8 on the narrow one, hold exactly fn and arg, which the child uses as call target and
argument. -/
theorem internal_clone_frame (s390x : Bool) (r2 : Nat) (run : Nat → Nat → Nat)
    (mem : Memory) (fn child_stack : Nat) (flags : Int)
    (arg parent_tidptr newtls child_tidptr : Nat)
    (hfn : fn ≠ 0) (hcs : child_stack ≠ 0) (hal : child_stack % 16 = 0) :
    ∃ sp : Nat,
      sp = ptrAdd s390x child_stack (if s390x then -160 else -96) ∧
      ((if s390x then 160 else 96) ≤ child_stack → child_stack < 2 ^ wordBits s390x →
        sp = child_stack - (if s390x then 160 else 96)) ∧
      (internal_clone s390x r2 run mem fn child_stack flags arg parent_tidptr newtls
          child_tidptr).trace.head? =
        some (.svc .NR_clone [sp, toWord s390x flags, parent_tidptr, child_tidptr, newtls]) ∧
      (internal_clone s390x r2 run mem fn child_stack flags arg parent_tidptr newtls
          child_tidptr).writes =
        [(sp, 0), (ptrAdd s390x sp (wordBytes s390x), fn),
          (ptrAdd s390x sp (2 * wordBytes s390x), arg)] ∧
      (internal_clone s390x r2 run mem fn child_stack flags arg parent_tidptr newtls
          child_tidptr).mem sp = 0 ∧
      (internal_clone s390x r2 run mem fn child_stack flags arg parent_tidptr newtls
          child_tidptr).mem (ptrAdd s390x sp (if s390x then 8 else 4)) = fn ∧
      (internal_clone s390x r2 run mem fn child_stack flags arg parent_tidptr newtls
          child_tidptr).mem (ptrAdd s390x sp (if s390x then 16 else 8)) = arg ∧
      (r2 = 0 →
        (internal_clone s390x r2 run mem fn child_stack flags arg parent_tidptr newtls
          child_tidptr).trace.tail.head? = some (.call fn arg)) := by
  have hF : (if s390x then (-160 : Int) else -96) = -(minFrame s390x : Int) := by
    cases s390x <;> rfl
  have hF2 : (if s390x then 160 else 96) = minFrame s390x := by
    cases s390x <;> rfl
  have h8 : (if s390x then (8 : Int) else 4) = (wordBytes s390x : Int) := by
    cases s390x <;> rfl
  have h16 : (if s390x then (16 : Int) else 8) = 2 * (wordBytes s390x : Int) := by
    cases s390x <;> rfl
  have hsp := ptrAdd_lt s390x child_stack (-(minFrame s390x : Int))
  obtain ⟨m0, m1, m2⟩ := frame_reload s390x mem _ fn arg hsp
  obtain ⟨ht, hwr, hm⟩ := internal_clone_accepted_common s390x r2 run mem fn child_stack
    flags arg parent_tidptr newtls child_tidptr hfn hcs hal
  refine ⟨ptrAdd s390x child_stack (-(minFrame s390x : Int)), by rw [hF], ?_, ht, hwr,
    ?_, ?_, ?_, ?_⟩
  · intro hroom hw
    rw [hF2] at hroom ⊢
    exact (frame_in_range s390x child_stack hw hroom).1
  · rw [hm]
    exact m0
  · rw [hm, h8]
    exact m1
  · rw [hm, h16]
    exact m2
  · intro hr
    subst hr
    unfold internal_clone
    rw [if_neg (not_null_of_accepted fn child_stack hfn hcs), if_neg (not_not.mpr hal)]
    simp only [ne_eq, not_true_eq_false, if_false, List.tail_cons, List.head?_cons, m1, m2]

/-- Witness of C13 on the 64-bit variant: stack top 4096, fn at 1000, arg 55; the stack
pointer passed is 3936 and the child calls 1000 with 55. -/
theorem internal_clone_frame_witness :
    ∃ sp : Nat,
      sp = ptrAdd true 4096 (if true then -160 else -96) ∧
      ((if true then 160 else 96) ≤ 4096 → 4096 < 2 ^ wordBits true →
        sp = 4096 - (if true then 160 else 96)) ∧
      (internal_clone true 0 (fun _ _ => 7) (fun _ => 9) 1000 4096 17 55 0 0 0).trace.head? =
        some (.svc .NR_clone [sp, toWord true 17, 0, 0, 0]) ∧
      (internal_clone true 0 (fun _ _ => 7) (fun _ => 9) 1000 4096 17 55 0 0 0).writes =
        [(sp, 0), (ptrAdd true sp (wordBytes true), 1000),
          (ptrAdd true sp (2 * wordBytes true), 55)] ∧
      (internal_clone true 0 (fun _ _ => 7) (fun _ => 9) 1000 4096 17 55 0 0 0).mem sp = 0 ∧
      (internal_clone true 0 (fun _ _ => 7) (fun _ => 9) 1000 4096 17 55 0 0 0).mem
          (ptrAdd true sp (if true then 8 else 4)) = 1000 ∧
      (internal_clone true 0 (fun _ _ => 7) (fun _ => 9) 1000 4096 17 55 0 0 0).mem
          (ptrAdd true sp (if true then 16 else 8)) = 55 ∧
      ((0 : Nat) = 0 →
        (internal_clone true 0 (fun _ _ => 7) (fun _ => 9) 1000 4096 17 55 0 0
          0).trace.tail.head? = some (.call 1000 55)) :=
  internal_clone_frame true 0 (fun _ _ => 7) (fun _ => 9) 1000 4096 17 55 0 0 0
    (by decide) (by decide) (by decide)

theorem scanDigits_append (d s : List Char) (hd : allDigits d = true)
    (hs : endsNumber s = true) (acc : Nat) :
    scanDigits acc (d ++ s) = ((scanDigits acc d).1, s) := by
  induction d generalizing acc with
  | nil =>
    cases s with
    | nil => rfl
    | cons c t =>
      have hc : IsDigit c = false := by simpa [endsNumber] using hs
      simp [scanDigits, hc]
  | cons c d ih =>
    have hcd : IsDigit c = true ∧ allDigits d = true := by
      simpa [allDigits] using hd
    simp only [List.cons_append, scanDigits, hcd.1, if_true]
    exact ih hcd.2 _

theorem strtoll_append (d s : List Char) (hd : allDigits d = true)
    (hs : endsNumber s = true) :
    internal_simple_strtoll (d ++ s) = ((internal_simple_strtoll d).1, s) := by
  simp [internal_simple_strtoll, scanDigits_append d s hd hs 0]

theorem parseRelease_three (dM dN dP s : List Char) (hM : allDigits dM = true)
    (hN : allDigits dN = true) (hP : allDigits dP = true) (hs : endsNumber s = true) :
    parseRelease internal_simple_strtoll (dM ++ ('.' :: (dN ++ ('.' :: (dP ++ s))))) =
      some (toUInt (internal_simple_strtoll dM).1, toUInt (internal_simple_strtoll dN).1,
        toUInt (internal_simple_strtoll dP).1) := by
  have hdot : ∀ t : List Char, endsNumber ('.' :: t) = true := fun _ => rfl
  unfold parseRelease
  simp only [strtoll_append dM _ hM (hdot _), strtoll_append dN _ hN (hdot _),
    strtoll_append dP s hP hs]

theorem parseRelease_two (dM dN s : List Char) (hM : allDigits dM = true)
    (hN : allDigits dN = true) (hs : endsVersion s = true) :
    parseRelease internal_simple_strtoll (dM ++ ('.' :: (dN ++ s))) =
      some (toUInt (internal_simple_strtoll dM).1, toUInt (internal_simple_strtoll dN).1,
        0) := by
  have hdot : ∀ t : List Char, endsNumber ('.' :: t) = true := fun _ => rfl
  have hs1 : endsNumber s = true := by
    cases s with
    | nil => rfl
    | cons c t =>
      simp only [endsVersion, Bool.and_eq_true] at hs
      simpa [endsNumber] using hs.1
  unfold parseRelease
  simp only [strtoll_append dM _ hM (hdot _), strtoll_append dN s hN hs1]
  cases s with
  | nil => rfl
  | cons c t =>
    have hc : c ≠ '.' := by
      simp only [endsVersion, Bool.and_eq_true, decide_eq_true_eq] at hs
      exact hs.2
    split
    · rename_i rest2 heq
      injection heq with h1 _
      exact absurd h1 hc
    · rfl

/-- C15: the classification by FixedCVE_2016_2143 depends only on the leading
major.minor[.patch] text. For all digit strings M, N, P: the release M.N.P followed by a
suffix that is empty or begins with a non-digit is classified as M.N.P is; and the release
M.N followed by a suffix that is empty or begins with a character that is neither a digit
nor a dot is classified as M.N.0 is. -/
theorem FixedCVE_2016_2143_suffix (dM dN dP s : List Char) (hM : allDigits dM = true)
    (hN : allDigits dN = true) (hP : allDigits dP = true) :
    (endsNumber s = true →
      FixedCVE_2016_2143 internal_simple_strtoll
          (some (dM ++ ('.' :: (dN ++ ('.' :: (dP ++ s)))))) =
        FixedCVE_2016_2143 internal_simple_strtoll
          (some (dM ++ ('.' :: (dN ++ ('.' :: dP)))))) ∧
    (endsVersion s = true →
      FixedCVE_2016_2143 internal_simple_strtoll (some (dM ++ ('.' :: (dN ++ s)))) =
        FixedCVE_2016_2143 internal_simple_strtoll
          (some (dM ++ ('.' :: (dN ++ ['.', '0']))))) := by
  constructor
  · intro hs
    have h1 := parseRelease_three dM dN dP s hM hN hP hs
    have h2 := parseRelease_three dM dN dP [] hM hN hP rfl
    rw [List.append_nil] at h2
    simp only [FixedCVE_2016_2143, h1, h2]
  · intro hs
    have h1 := parseRelease_two dM dN s hM hN hs
    have h2 := parseRelease_three dM dN ['0'] [] hM hN rfl rfl
    have h0 : toUInt (internal_simple_strtoll ['0']).1 = 0 := by decide
    rw [List.append_nil, h0] at h2
    simp only [FixedCVE_2016_2143, h1, h2]

/-- Witness of C15: 4.4.6-21-generic is fixed like 4.4.6, and 4.3-rc1 is vulnerable like
4.3.0. -/
theorem FixedCVE_2016_2143_suffix_witness :
    (FixedCVE_2016_2143 internal_simple_strtoll (some "4.4.6-21-generic".toList) =
        FixedCVE_2016_2143 internal_simple_strtoll (some "4.4.6".toList) ∧
      classify "4.4.6-21-generic" = true) ∧
    (FixedCVE_2016_2143 internal_simple_strtoll (some "4.3-rc1".toList) =
        FixedCVE_2016_2143 internal_simple_strtoll (some "4.3.0".toList) ∧
      classify "4.3-rc1" = false) :=
  ⟨⟨(FixedCVE_2016_2143_suffix "4".toList "4".toList "6".toList "-21-generic".toList
        (by decide) (by decide) (by decide)).1 (by decide), by decide⟩,
   ⟨(FixedCVE_2016_2143_suffix "4".toList "3".toList [] "-rc1".toList
        (by decide) (by decide) (by decide)).2 (by decide), by decide⟩⟩

end Sanitizer
